import Mathlib

/-!
Verification development for the `ws2812b` LED-strip driver
(`src/libs/bhbadge2024/src/ws2812b.rs` of `bornhack/badge2024`).

The driver is shallowly embedded: machine integers (`u8`, `u32`, `usize`)
become `Nat` with explicit `% 2 ^ 32` where wrapping matters, `f32`
arithmetic is modelled as exact rational arithmetic (fractions of naturals,
with round-half-away-from-zero computed by natural division), Rust panics
become `Option.none`, and the control flow of the async `handler` task and
the public API is modelled as explicit event traces and state-transition
functions.
-/

set_option autoImplicit false
set_option maxRecDepth 16384

namespace Ws2812b

/-- Number of pixels on the strip, `PIXEL_COUNT` in `ws2812b.rs`. -/
def PIXEL_COUNT : Nat := 16

/-- Mirror of `esp_hal::rmt::PulseCode`: one hardware pulse descriptor, a pair of
(level, duration-in-ticks) phases. -/
structure PulseCode where
  level1 : Bool
  length1 : Nat
  level2 : Bool
  length2 : Nat
deriving DecidableEq

/-- Packing of a `PulseCode` into a `u32` word as done by `u32::from(PulseCode)` in
`esp_hal`: bits 0-14 hold `length1`, bit 15 holds `level1`, bits 16-30 hold
`length2`, bit 31 holds `level2`. -/
def PulseCode.toU32 (p : PulseCode) : Nat :=
  ((cond p.level2 1 0) <<< 31) ||| ((p.length2 % 2 ^ 15) <<< 16) |||
    ((cond p.level1 1 0) <<< 15) ||| (p.length1 % 2 ^ 15)

/-- The `ZERO` calibration constant of `write_pulse_codes`: the pulse shape that
encodes a 0 bit (250 ns high, 1000 ns low at 80 MHz). -/
def ZERO : PulseCode := { level1 := true, length1 := 20, level2 := false, length2 := 80 }

/-- The `ONE` calibration constant of `write_pulse_codes`: the pulse shape that
encodes a 1 bit (875 ns high, 375 ns low at 80 MHz). -/
def ONE : PulseCode := { level1 := true, length1 := 70, level2 := false, length2 := 30 }

/-- The packed constant `ZERO_BITS = (0 << 31) | (80 << 16) | (1 << 15) | (20 << 0)`. -/
def ZERO_BITS : Nat := (0 <<< 31) ||| (80 <<< 16) ||| (1 <<< 15) ||| (20 <<< 0)

/-- The packed constant `ONE_BITS = (0 << 31) | (30 << 16) | (1 << 15) | (70 << 0)`. -/
def ONE_BITS : Nat := (0 <<< 31) ||| (30 <<< 16) ||| (1 <<< 15) ||| (70 <<< 0)

/-- A brightness/color-correction multiplier `num / den`. The driver's `f32`
correction values are modelled as exact fractions of naturals. -/
structure Correction where
  num : Nat
  den : Nat
deriving DecidableEq

/-- Exact value of `(byte * (num / den)).round()` (round half away from zero; for
the nonnegative products of this driver that is `⌊byte * num / den + 1 / 2⌋`),
computed without intermediate floats: `⌊x + 1 / 2⌋ = (2 * byte * num + den) / (2 * den)`
as natural division. -/
def roundCorrected (byte : Nat) (c : Correction) : Nat :=
  (2 * byte * c.num + c.den) / (2 * c.den)

/-- Rust's `.round() as u8` from `write_pulse_codes`: the rounded product, put
through the saturating `f32`-to-`u8` cast. -/
def roundAsU8 (byte : Nat) (c : Correction) : Nat := min (roundCorrected byte c) 255

/-- The bit-emission loop of `write_pulse_codes`: the running `u32` state starts
as the adjusted byte shifted into the top byte; each iteration emits `ZERO_BITS`
or `ONE_BITS` according to bit 31 (`byte & 0x80000000`), then shifts left by one
with `u32` wrap-around. -/
def pulse_bits : Nat → Nat → List Nat
  | 0, _ => []
  | n + 1, byte =>
    (if byte &&& 0x80000000 == 0 then ZERO_BITS else ONE_BITS) ::
      pulse_bits n ((byte <<< 1) % 2 ^ 32)

/-- `write_pulse_codes(byte, out, correction)` from `ws2812b.rs`, returning the
eight packed descriptors written into `out`: the byte is first corrected with
`((byte as f32) * correction).round() as u8`, then shifted into the top byte of
a `u32` and emitted most-significant bit first. -/
def write_pulse_codes (byte : Nat) (correction : Correction) : List Nat :=
  pulse_bits 8 (roundAsU8 byte correction <<< 24)

/-- The per-channel correction multipliers `CORRECTIONS` of `handler`, in the
stored channel order (green, red, blue): `[0.3*177.0/256.0, 0.3*256.0/256.0,
0.3*241.0/256.0]`, as the exact fractions `531/2560`, `768/2560`, `723/2560`. -/
def CORRECTIONS : List Correction :=
  [⟨3 * 177, 10 * 256⟩, ⟨3 * 256, 10 * 256⟩, ⟨3 * 241, 10 * 256⟩]

/-- One stored pixel `[u8; 3]` in the internal channel order of the frame buffer:
index 0 green, index 1 red, index 2 blue. -/
structure Grb where
  g : Nat
  r : Nat
  b : Nat
deriving DecidableEq

/-- `FrameBuffer::set_pixel(index, (r, g, b))`: writes `pixel[0] = g`,
`pixel[1] = r`, `pixel[2] = b` at `self.frame_buffer[index]`. The Rust indexing
panics when `index` is out of range; the panic is modelled as `none` (the call
fails and no slot is written). -/
def FrameBuffer.set_pixel (fb : List Grb) (index : Nat) (rgb : Nat × Nat × Nat) :
    Option (List Grb) :=
  if index < fb.length then some (fb.set index ⟨rgb.2.1, rgb.1, rgb.2.2⟩) else none

/-- The per-pixel encoding step of `handler`: `chunk.iter()` (the three stored
channel bytes, in g, r, b order) is zipped with `pulsecodes.chunks_exact_mut(8)`
(slots 0-7, 8-15, 16-23 of the pixel's 25-slot chunk) and with `CORRECTIONS`;
slot 24, the remainder of `chunks_exact_mut`, is never written and keeps its
previous contents `old.drop 24`. -/
def encodePixel (p : Grb) (old : List Nat) : List Nat :=
  write_pulse_codes p.g (CORRECTIONS.getD 0 ⟨0, 1⟩) ++
    write_pulse_codes p.r (CORRECTIONS.getD 1 ⟨0, 1⟩) ++
      write_pulse_codes p.b (CORRECTIONS.getD 2 ⟨0, 1⟩) ++ old.drop 24

/-- The encoding pass of `handler`: `frame_buffer.iter().zip(pulsecodes.iter_mut())`
runs every pixel through `write_pulse_codes`, updating the staging buffer
chunk by chunk. -/
def encodeFrame (frame : List Grb) (old : List (List Nat)) : List (List Nat) :=
  (frame.zip old).map fun po => encodePixel po.1 po.2

/-- The initial frame buffer contents `[[0; 3]; PIXEL_COUNT]` from `Ws2812b::new`. -/
def initFrame : List Grb := List.replicate PIXEL_COUNT ⟨0, 0, 0⟩

/-- The initial staging buffer `[[0u32; 25]; PIXEL_COUNT]` from `Ws2812b::new`. -/
def initPulseCodes : List (List Nat) := List.replicate PIXEL_COUNT (List.replicate 25 0)

/-- Big-endian (most-significant-bit-first) descriptor expansion of a byte: the
sequence the specification says one encoded channel must equal. This definition
follows the spec's words and is compared against the encoder from the source. -/
def byteDescriptors (b : Nat) : List Nat :=
  (List.range 8).map fun i => if b.testBit (7 - i) then ONE_BITS else ZERO_BITS

/-- `Signal::signal(())` on the `ActivationSignal`: marks a notification pending,
regardless of whether one was already pending (the `()` payload carries no data). -/
def ActivationSignal.signal (_ : Bool) : Bool := true

/-- `Signal::wait()`: when a notification is pending, consumes it and returns the
cleared pending flag; otherwise the task suspends, modelled as `none`. -/
def ActivationSignal.wait (s : Bool) : Option Bool := if s then some false else none

/-- The shared `CommunicationState` as seen by the driver model: the frame buffer
contents and the pending flag of the activation signal. -/
structure DriverState where
  frame : List Grb
  pending : Bool
deriving DecidableEq

/-- `Ws2812b::with_frame_buffer(f)`: runs the closure on the frame buffer under
the lock, then raises the activation signal once, and returns the closure's
result. The closure is modelled as a function from the frame to the new frame
paired with a result value. -/
def with_frame_buffer {α : Type} (st : DriverState) (f : List Grb → List Grb × α) :
    DriverState × α :=
  (⟨(f st.frame).1, ActivationSignal.signal st.pending⟩, (f st.frame).2)

/-- `Ws2812b::set_pixel(index, rgb)`: `with_frame_buffer` applied to
`FrameBuffer::set_pixel`. An out-of-range index panics inside the closure
(before the signal is raised), modelled as `none`. -/
def set_pixel (st : DriverState) (index : Nat) (rgb : Nat × Nat × Nat) :
    Option DriverState :=
  (FrameBuffer.set_pixel st.frame index rgb).map fun fb =>
    ⟨fb, ActivationSignal.signal st.pending⟩

/-- The state built by `Ws2812b::new`: a zeroed frame buffer, and the activation
signal raised once (line `state.activation_signal.signal(())`) after the
handler task is spawned. -/
def new : DriverState := ⟨initFrame, ActivationSignal.signal false⟩

/-- The `activation_signal.wait().await` step at the top of the `handler` loop:
proceeds (consuming the notification) exactly when one is pending. -/
def handlerWait (st : DriverState) : Option DriverState :=
  (ActivationSignal.wait st.pending).map fun p => ⟨st.frame, p⟩

/-- Control-flow events of the driver, used to state lock-ordering and
signal-ordering claims about `handler`, `with_frame_buffer` and `new`. -/
inductive Ev where
  | spawnHandler : Ev
  | signalRaise : Ev
  | waitSignal : Ev
  | lockAcquire : Ev
  | runClosure : Ev
  | encodePixel : Nat → Ev
  | lockRelease : Ev
  | awaitTransmit : Nat → Ev
  | resetDelay : Nat → Ev
deriving DecidableEq

/-- Whether an event is a chunk submission to the RMT transmitter. -/
def Ev.isTransmit : Ev → Bool
  | .awaitTransmit _ => true
  | _ => false

/-- One iteration of the `handler` loop as an event trace: wait on the signal;
take the frame-buffer lock; inside the lock, encode all `PIXEL_COUNT` pixels
into the staging buffer; release the lock; transmit the 16 chunks one at a
time, each `transmit(..).await`ed before the next; finally
`Timer::after_micros(50)` before looping back to the wait. -/
def renderPassTrace : List Ev :=
  [Ev.waitSignal, Ev.lockAcquire] ++ ((List.range PIXEL_COUNT).map Ev.encodePixel) ++
    [Ev.lockRelease] ++ ((List.range PIXEL_COUNT).map Ev.awaitTransmit) ++
      [Ev.resetDelay 50]

/-- `Ws2812b::with_frame_buffer` as an event trace: take the lock, run the
caller's closure, release the lock, raise the signal once. The trace does not
depend on the closure or on how many pixels it touches. -/
def withFrameBufferTrace : List Ev :=
  [Ev.lockAcquire, Ev.runClosure, Ev.lockRelease, Ev.signalRaise]

/-- `Ws2812b::new` as an event trace: spawn the handler task, then raise the
activation signal once. -/
def newTrace : List Ev := [Ev.spawnHandler, Ev.signalRaise]

/-- The events that occur while the frame-buffer guard is held: those strictly
between the first `lockAcquire` and the following `lockRelease`. -/
def underGuard (t : List Ev) : List Ev :=
  ((t.dropWhile fun e => !(e == Ev.lockAcquire)).drop 1).takeWhile
    fun e => !(e == Ev.lockRelease)

/-! ### Helper lemmas about the encoder -/

theorem pulse_bits_length (n b : Nat) : (pulse_bits n b).length = n := by
  induction n generalizing b with
  | zero => rfl
  | succ n ih => simp [pulse_bits, ih]

theorem pulse_bits_mem {n b x : Nat} (h : x ∈ pulse_bits n b) :
    x = ZERO_BITS ∨ x = ONE_BITS := by
  induction n generalizing b with
  | zero => cases h
  | succ n ih =>
    simp only [pulse_bits, List.mem_cons] at h
    rcases h with rfl | h
    · split
      · exact Or.inl rfl
      · exact Or.inr rfl
    · exact ih h

/-- Evaluation of the bit loop on every possible corrected byte: with the byte in
the top 8 bits of the `u32` state, the emitted descriptors are its big-endian
bit expansion. -/
theorem pulse_bits_byte : ∀ a, a < 256 → pulse_bits 8 (a <<< 24) = byteDescriptors a := by
  decide

theorem write_pulse_codes_length (b : Nat) (c : Correction) :
    (write_pulse_codes b c).length = 8 :=
  pulse_bits_length 8 _

theorem write_pulse_codes_mem {b x : Nat} {c : Correction}
    (h : x ∈ write_pulse_codes b c) : x = ZERO_BITS ∨ x = ONE_BITS :=
  pulse_bits_mem h

/-- For a byte and a correction multiplier in (0, 1], the rounded corrected value
fits in a byte, so the saturating `as u8` cast is the identity on it. -/
theorem roundCorrected_le (b : Nat) (c : Correction) (hb : b < 256) (h0 : 0 < c.num)
    (h1 : c.num ≤ c.den) : roundCorrected b c ≤ 255 := by
  have hd : 0 < c.den := lt_of_lt_of_le h0 h1
  have hnum : 2 * b * c.num + c.den ≤ 511 * c.den := by nlinarith
  have hlt : (2 * b * c.num + c.den) / (2 * c.den) < 256 :=
    (Nat.div_lt_iff_lt_mul (by omega)).mpr (by omega)
  have : roundCorrected b c < 256 := hlt
  omega

theorem roundAsU8_eq (b : Nat) (c : Correction) (hb : b < 256) (h0 : 0 < c.num)
    (h1 : c.num ≤ c.den) : roundAsU8 b c = roundCorrected b c :=
  min_eq_left (roundCorrected_le b c hb h0 h1)

theorem encodePixel_length (p : Grb) (old : List Nat) (h : old.length = 25) :
    (encodePixel p old).length = 25 := by
  simp [encodePixel, write_pulse_codes_length, h]

theorem encodeFrame_length (frame : List Grb) (old : List (List Nat))
    (h : frame.length = old.length) : (encodeFrame frame old).length = frame.length := by
  simp [encodeFrame, h]

theorem encodeFrame_mem {frame : List Grb} {old : List (List Nat)} {ch : List Nat}
    (h : ch ∈ encodeFrame frame old) :
    ∃ p o, p ∈ frame ∧ o ∈ old ∧ ch = encodePixel p o := by
  simp only [encodeFrame, List.mem_map] at h
  obtain ⟨⟨p, o⟩, hmem, rfl⟩ := h
  exact ⟨p, o, (List.of_mem_zip hmem).1, (List.of_mem_zip hmem).2, rfl⟩

theorem encodePixel_take (p : Grb) (old : List Nat) :
    (encodePixel p old).take 24 =
      write_pulse_codes p.g (CORRECTIONS.getD 0 ⟨0, 1⟩) ++
        write_pulse_codes p.r (CORRECTIONS.getD 1 ⟨0, 1⟩) ++
          write_pulse_codes p.b (CORRECTIONS.getD 2 ⟨0, 1⟩) := by
  have h24 :
      (write_pulse_codes p.g (CORRECTIONS.getD 0 ⟨0, 1⟩) ++
        write_pulse_codes p.r (CORRECTIONS.getD 1 ⟨0, 1⟩) ++
          write_pulse_codes p.b (CORRECTIONS.getD 2 ⟨0, 1⟩)).length = 24 := by
    simp [write_pulse_codes_length]
  rw [encodePixel, List.append_assoc, List.append_assoc, ← List.append_assoc,
    ← List.append_assoc, show (24 : Nat) = _ from h24.symm, List.take_left]

theorem encodePixel_drop (p : Grb) (old : List Nat) :
    (encodePixel p old).drop 24 = old.drop 24 := by
  have h24 :
      (write_pulse_codes p.g (CORRECTIONS.getD 0 ⟨0, 1⟩) ++
        write_pulse_codes p.r (CORRECTIONS.getD 1 ⟨0, 1⟩) ++
          write_pulse_codes p.b (CORRECTIONS.getD 2 ⟨0, 1⟩)).length = 24 := by
    simp [write_pulse_codes_length]
  rw [encodePixel, List.append_assoc, List.append_assoc, ← List.append_assoc,
    ← List.append_assoc, show (24 : Nat) = _ from h24.symm, List.drop_left]

theorem encodePixel_take_mem {p : Grb} {old : List Nat} {x : Nat}
    (h : x ∈ (encodePixel p old).take 24) : x = ZERO_BITS ∨ x = ONE_BITS := by
  rw [encodePixel_take] at h
  simp only [List.mem_append] at h
  rcases h with (h | h) | h
  exacts [write_pulse_codes_mem h, write_pulse_codes_mem h, write_pulse_codes_mem h]

theorem encodeFrame_map_drop : ∀ (frame : List Grb) (old : List (List Nat)),
    frame.length = old.length →
    ((encodeFrame frame old).map fun ch => ch.drop 24) = old.map fun ch => ch.drop 24
  | [], [], _ => rfl
  | [], _ :: _, h => by simp at h
  | _ :: _, [], h => by simp at h
  | p :: frame, o :: old, h => by
    have ih := encodeFrame_map_drop frame old (by simpa using h)
    simp only [encodeFrame, List.zip_cons_cons, List.map_cons] at ih ⊢
    rw [encodePixel_drop, ih]

theorem set_pixel_some {st : DriverState} {i : Nat} {rgb : Nat × Nat × Nat}
    {st2 : DriverState} (h : set_pixel st i rgb = some st2) :
    i < st.frame.length ∧ st2 = ⟨st.frame.set i ⟨rgb.2.1, rgb.1, rgb.2.2⟩, true⟩ := by
  by_cases c : i < st.frame.length
  · refine ⟨c, ?_⟩
    simp only [set_pixel, FrameBuffer.set_pixel, ActivationSignal.signal, if_pos c,
      Option.map_some', Option.some.injEq] at h
    exact h.symm
  · simp [set_pixel, FrameBuffer.set_pixel, c] at h

/-! ### The claims -/

/-- C1: for every byte `b < 256` and every correction multiplier `num / den` in
(0, 1], `write_pulse_codes` produces exactly 8 pulse descriptors, each equal to
the packed form of the configured `ZERO` or `ONE` constant, and the descriptor
sequence is the big-endian (most-significant-bit-first) bit expansion of
`round(b * num / den)`; the correction is applied before any bit extraction. -/
theorem claim1_encode (b : Nat) (c : Correction) (hb : b < 256) (h0 : 0 < c.num)
    (h1 : c.num ≤ c.den) :
    (write_pulse_codes b c).length = 8 ∧
    (∀ x ∈ write_pulse_codes b c, x = ZERO_BITS ∨ x = ONE_BITS) ∧
    write_pulse_codes b c = byteDescriptors (roundCorrected b c) ∧
    ZERO.toU32 = ZERO_BITS ∧ ONE.toU32 = ONE_BITS := by
  refine ⟨write_pulse_codes_length b c, fun x hx => write_pulse_codes_mem hx, ?_,
    by decide, by decide⟩
  have hle := roundCorrected_le b c hb h0 h1
  unfold write_pulse_codes
  rw [roundAsU8_eq b c hb h0 h1]
  exact pulse_bits_byte _ (by omega)

/-- Witness for C1 at byte 255 and the red-channel correction 768/2560 = 0.3
(where `roundCorrected` evaluates to 77). -/
theorem claim1_encode_witness :
    (write_pulse_codes 255 ⟨3 * 256, 10 * 256⟩).length = 8 ∧
    (∀ x ∈ write_pulse_codes 255 ⟨3 * 256, 10 * 256⟩, x = ZERO_BITS ∨ x = ONE_BITS) ∧
    write_pulse_codes 255 ⟨3 * 256, 10 * 256⟩ =
      byteDescriptors (roundCorrected 255 ⟨3 * 256, 10 * 256⟩) ∧
    ZERO.toU32 = ZERO_BITS ∧ ONE.toU32 = ONE_BITS :=
  claim1_encode 255 ⟨3 * 256, 10 * 256⟩ (by decide) (by decide) (by decide)

/-- C2 counterexample: `set_pixel(0, (255, 0, 0))` does store (0, 255, 0) at slot 0,
but the rendered chunk does not represent the byte sequence [0x00, 0xFF, 0x00]
after correction: the corrected red byte is round(255 · 0.3) = 77 = 0x4D, so
descriptor 8 of pixel 0's chunk (the red channel's most significant bit) is
`ZERO_BITS` = 5275668, while the big-endian expansion of [0x00, 0xFF, 0x00] has
`ONE_BITS` = 1998918 there; the strict inequality exhibits the mismatch. -/
theorem claim2_counterexample :
    FrameBuffer.set_pixel initFrame 0 (255, 0, 0) =
      some (⟨0, 255, 0⟩ :: List.replicate 15 ⟨0, 0, 0⟩) ∧
    (byteDescriptors 0x00 ++ byteDescriptors 0xFF ++ byteDescriptors 0x00).getD 8 0 <
      ((encodeFrame (⟨0, 255, 0⟩ :: List.replicate 15 ⟨0, 0, 0⟩) initPulseCodes).getD 0
        []).getD 8 0 :=
  ⟨by decide, by decide⟩

/-- C2 (amended): `set_pixel(i, (r, g, b))` stores the channels at slot `i` in the
internal (green, red, blue) order; `set_pixel(0, (255, 0, 0))` leaves slot 0
holding (0, 255, 0); and a subsequent render encodes that slot as 24
bit-descriptors representing the corrected byte sequence [0x00, 0x4D, 0x00]
(0x4D = 77 = round(255 · 0.3); the claim's [0x00, 0xFF, 0x00] holds only before
correction). -/
theorem claim2_internal_order (fb : List Grb) (index r g b : Nat)
    (h : index < fb.length) :
    FrameBuffer.set_pixel fb index (r, g, b) = some (fb.set index ⟨g, r, b⟩) ∧
    FrameBuffer.set_pixel initFrame 0 (255, 0, 0) =
      some (⟨0, 255, 0⟩ :: List.replicate 15 ⟨0, 0, 0⟩) ∧
    roundCorrected 255 (CORRECTIONS.getD 1 ⟨0, 1⟩) = 0x4D ∧
    ((encodeFrame (⟨0, 255, 0⟩ :: List.replicate 15 ⟨0, 0, 0⟩) initPulseCodes).getD 0
        []).take 24 =
      byteDescriptors 0x00 ++ byteDescriptors 0x4D ++ byteDescriptors 0x00 := by
  refine ⟨?_, by decide, by decide, by decide⟩
  simp [FrameBuffer.set_pixel, h]

/-- Witness for C2 (amended) at slot 0 of the initial frame. -/
theorem claim2_internal_order_witness :
    FrameBuffer.set_pixel initFrame 0 (255, 0, 0) = some (initFrame.set 0 ⟨0, 255, 0⟩) ∧
    FrameBuffer.set_pixel initFrame 0 (255, 0, 0) =
      some (⟨0, 255, 0⟩ :: List.replicate 15 ⟨0, 0, 0⟩) ∧
    roundCorrected 255 (CORRECTIONS.getD 1 ⟨0, 1⟩) = 0x4D ∧
    ((encodeFrame (⟨0, 255, 0⟩ :: List.replicate 15 ⟨0, 0, 0⟩) initPulseCodes).getD 0
        []).take 24 =
      byteDescriptors 0x00 ++ byteDescriptors 0x4D ++ byteDescriptors 0x00 :=
  claim2_internal_order initFrame 0 255 0 0 (by decide)

/-- C4 counterexample: the render pass does hold the frame-buffer guard while
encoding — the encoding of pixel 0 into the staging buffer happens strictly
between `lockAcquire` and `lockRelease`, refuting "never holds the Pixel Store
guard while encoding pixels into the staging buffer". -/
theorem claim4_counterexample : Ev.encodePixel 0 ∈ underGuard renderPassTrace := by
  decide

/-- C4 (amended): the Render Loop does not copy the Frame out; it acquires the
guard, encodes all 16 pixels into the staging buffer while holding it, and
releases it before any transmission: the events under the guard are exactly the
16 per-pixel encodes, no transmission happens under the guard or anywhere
before the release, and all 16 chunk transmissions happen after the release. -/
theorem claim4_guard_scope :
    underGuard renderPassTrace = (List.range PIXEL_COUNT).map Ev.encodePixel ∧
    (underGuard renderPassTrace).filter Ev.isTransmit = [] ∧
    (renderPassTrace.takeWhile fun e => !(e == Ev.lockRelease)).filter Ev.isTransmit =
      [] ∧
    (renderPassTrace.dropWhile fun e => !(e == Ev.lockRelease)).filter Ev.isTransmit =
      (List.range PIXEL_COUNT).map Ev.awaitTransmit :=
  ⟨by decide, by decide, by decide, by decide⟩

/-- C5: each render pass submits the staging buffer as exactly 16 sequential
per-pixel chunks of 25 descriptors each, in pixel index order (the trace's
transmissions are `awaitTransmit 0 … awaitTransmit 15`, each awaited before the
next is submitted), and after the last chunk the only remaining event of the
pass is the fixed 50 µs reset delay before the loop returns to waiting. -/
theorem claim5_transmission (frame : List Grb) (old : List (List Nat))
    (hf : frame.length = PIXEL_COUNT) (ho : old.length = PIXEL_COUNT)
    (hc : ∀ ch ∈ old, ch.length = 25) :
    (encodeFrame frame old).length = PIXEL_COUNT ∧
    (∀ ch ∈ encodeFrame frame old, ch.length = 25) ∧
    renderPassTrace.filter Ev.isTransmit = (List.range PIXEL_COUNT).map Ev.awaitTransmit ∧
    (renderPassTrace.dropWhile fun e => !(e == Ev.awaitTransmit 15)).drop 1 =
      [Ev.resetDelay 50] := by
  refine ⟨?_, ?_, by decide, by decide⟩
  · rw [encodeFrame_length frame old (by omega)]; exact hf
  · intro ch hch
    obtain ⟨p, o, hp, ho2, rfl⟩ := encodeFrame_mem hch
    exact encodePixel_length p o (hc o ho2)

/-- Witness for C5 at the initial frame and staging buffer. -/
theorem claim5_transmission_witness :
    (encodeFrame initFrame initPulseCodes).length = PIXEL_COUNT ∧
    (∀ ch ∈ encodeFrame initFrame initPulseCodes, ch.length = 25) ∧
    renderPassTrace.filter Ev.isTransmit = (List.range PIXEL_COUNT).map Ev.awaitTransmit ∧
    (renderPassTrace.dropWhile fun e => !(e == Ev.awaitTransmit 15)).drop 1 =
      [Ev.resetDelay 50] :=
  claim5_transmission initFrame initPulseCodes (by decide) (by decide) (by decide)

/-- C6: raising the activation signal N ≥ 1 times before the pending notification
is consumed is observationally identical to raising it once; and two
back-to-back `set_pixel` calls completing before the Render Loop wakes cause
exactly one render pass — the first `wait` succeeds on the frame holding both
writes, and a second `wait` (with no intervening signal) suspends. -/
theorem claim6_notify_coalesce :
    (∀ (s : Bool) (n : Nat), 1 ≤ n →
      ActivationSignal.signal^[n] s = ActivationSignal.signal s) ∧
    (∀ (st st1 st2 : DriverState) (i1 i2 : Nat) (rgb1 rgb2 : Nat × Nat × Nat),
      set_pixel st i1 rgb1 = some st1 → set_pixel st1 i2 rgb2 = some st2 →
      st2.pending = true ∧
      handlerWait st2 = some ⟨st2.frame, false⟩ ∧
      st2.frame = (st.frame.set i1 ⟨rgb1.2.1, rgb1.1, rgb1.2.2⟩).set i2
        ⟨rgb2.2.1, rgb2.1, rgb2.2.2⟩ ∧
      handlerWait ⟨st2.frame, false⟩ = none) := by
  constructor
  · intro s n hn
    obtain ⟨m, rfl⟩ : ∃ m, n = m + 1 := ⟨n - 1, by omega⟩
    rw [Function.iterate_succ_apply']
    rfl
  · intro st st1 st2 i1 i2 rgb1 rgb2 h1 h2
    obtain ⟨hl1, rfl⟩ := set_pixel_some h1
    obtain ⟨hl2, rfl⟩ := set_pixel_some h2
    exact ⟨rfl, rfl, rfl, rfl⟩

/-- Witness for C6: three signals collapse to one, and two concrete `set_pixel`
calls on the initial state coalesce into a single render of the final frame. -/
theorem claim6_notify_coalesce_witness :
    ActivationSignal.signal^[3] false = ActivationSignal.signal false ∧
    ((⟨(initFrame.set 0 ⟨2, 1, 3⟩).set 1 ⟨5, 4, 6⟩, true⟩ : DriverState).pending = true ∧
      handlerWait ⟨(initFrame.set 0 ⟨2, 1, 3⟩).set 1 ⟨5, 4, 6⟩, true⟩ =
        some ⟨(initFrame.set 0 ⟨2, 1, 3⟩).set 1 ⟨5, 4, 6⟩, false⟩ ∧
      (initFrame.set 0 ⟨2, 1, 3⟩).set 1 ⟨5, 4, 6⟩ =
        (initFrame.set 0 ⟨2, 1, 3⟩).set 1 ⟨5, 4, 6⟩ ∧
      handlerWait ⟨(initFrame.set 0 ⟨2, 1, 3⟩).set 1 ⟨5, 4, 6⟩, false⟩ = none) :=
  ⟨claim6_notify_coalesce.1 false 3 (by decide),
    claim6_notify_coalesce.2 ⟨initFrame, false⟩ ⟨initFrame.set 0 ⟨2, 1, 3⟩, true⟩
      ⟨(initFrame.set 0 ⟨2, 1, 3⟩).set 1 ⟨5, 4, 6⟩, true⟩ 0 1 (1, 2, 3) (4, 5, 6)
      (by decide) (by decide)⟩

/-- C7: `with_frame_buffer` holds the guard for exactly the caller's closure
(the only event under the guard is the closure run), releases it, and then
raises the Change Notifier exactly once — after the release and independently
of what the closure did; functionally the new state carries the closure's
frame and a raised pending flag. `set_pixel` goes through the same path:
it writes its slot under the guard and ends with the pending flag raised. -/
theorem claim7_with_frame_buffer :
    underGuard withFrameBufferTrace = [Ev.runClosure] ∧
    withFrameBufferTrace.count Ev.signalRaise = 1 ∧
    (withFrameBufferTrace.dropWhile fun e => !(e == Ev.lockRelease)).count
      Ev.signalRaise = 1 ∧
    (∀ (α : Type) (st : DriverState) (f : List Grb → List Grb × α),
      (with_frame_buffer st f).1.pending = true ∧
      (with_frame_buffer st f).1.frame = (f st.frame).1 ∧
      (with_frame_buffer st f).2 = (f st.frame).2) ∧
    (∀ (st : DriverState) (index r g b : Nat), index < st.frame.length →
      set_pixel st index (r, g, b) = some ⟨st.frame.set index ⟨g, r, b⟩, true⟩) := by
  refine ⟨by decide, by decide, by decide, fun α st f => ⟨rfl, rfl, rfl⟩, ?_⟩
  intro st index r g b h
  simp [set_pixel, FrameBuffer.set_pixel, ActivationSignal.signal, h]

/-- Witness for C7: a concrete in-range `set_pixel` writes its slot and raises
the pending flag. -/
theorem claim7_with_frame_buffer_witness :
    set_pixel ⟨initFrame, false⟩ 0 (1, 2, 3) = some ⟨initFrame.set 0 ⟨2, 1, 3⟩, true⟩ :=
  claim7_with_frame_buffer.2.2.2.2 ⟨initFrame, false⟩ 0 1 2 3 (by decide)

/-- C8: every well-shaped frame encodes to exactly 16 chunks of 25 descriptors;
within each chunk the 24 data entries are all `ZERO_BITS` or `ONE_BITS`; the
encoder writes only the first 24 entries of each chunk (entry 25 onward is
carried over unchanged from the staging buffer); and starting from the initial
staging buffer the 25th slot of every chunk still holds the idle/terminator
descriptor 0 after an encoding pass. -/
theorem claim8_staging_shape (frame : List Grb) (old : List (List Nat))
    (hf : frame.length = PIXEL_COUNT) (ho : old.length = PIXEL_COUNT)
    (hc : ∀ ch ∈ old, ch.length = 25) :
    (encodeFrame frame old).length = PIXEL_COUNT ∧
    (∀ ch ∈ encodeFrame frame old, ch.length = 25 ∧
      ∀ x ∈ ch.take 24, x = ZERO_BITS ∨ x = ONE_BITS) ∧
    ((encodeFrame frame old).map fun ch => ch.drop 24) =
      (old.map fun ch => ch.drop 24) ∧
    ((encodeFrame frame initPulseCodes).map fun ch => ch.drop 24) =
      List.replicate PIXEL_COUNT [0] := by
  refine ⟨?_, ?_, encodeFrame_map_drop frame old (by omega), ?_⟩
  · rw [encodeFrame_length frame old (by omega)]; exact hf
  · intro ch hch
    obtain ⟨p, o, hp, ho2, rfl⟩ := encodeFrame_mem hch
    exact ⟨encodePixel_length p o (hc o ho2), fun x hx => encodePixel_take_mem hx⟩
  · rw [encodeFrame_map_drop frame initPulseCodes (by rw [hf]; decide)]
    decide

/-- Witness for C8 at the initial frame and staging buffer. -/
theorem claim8_staging_shape_witness :
    (encodeFrame initFrame initPulseCodes).length = PIXEL_COUNT ∧
    (∀ ch ∈ encodeFrame initFrame initPulseCodes, ch.length = 25 ∧
      ∀ x ∈ ch.take 24, x = ZERO_BITS ∨ x = ONE_BITS) ∧
    ((encodeFrame initFrame initPulseCodes).map fun ch => ch.drop 24) =
      (initPulseCodes.map fun ch => ch.drop 24) ∧
    ((encodeFrame initFrame initPulseCodes).map fun ch => ch.drop 24) =
      List.replicate PIXEL_COUNT [0] :=
  claim8_staging_shape initFrame initPulseCodes (by decide) (by decide) (by decide)

/-- C9: for every index outside [0, 16), `set_pixel` fails rather than
completing — both at the `FrameBuffer` level and through the public API the
call is rejected (the Rust indexing panics, modelled as `none`), so no frame is
produced, no slot is written, and in particular the index is never silently
clamped to a valid one. -/
theorem claim9_out_of_range (fb : List Grb) (index : Nat) (rgb : Nat × Nat × Nat)
    (pend : Bool) (hlen : fb.length = PIXEL_COUNT) (hidx : PIXEL_COUNT ≤ index) :
    FrameBuffer.set_pixel fb index rgb = none ∧
    set_pixel ⟨fb, pend⟩ index rgb = none := by
  have h16 : fb.length = 16 := by simpa [PIXEL_COUNT] using hlen
  have h16b : 16 ≤ index := by simpa [PIXEL_COUNT] using hidx
  have h : ¬ index < fb.length := by omega
  constructor <;> simp [set_pixel, FrameBuffer.set_pixel, h]

/-- Witness for C9 at the first out-of-range index, 16. -/
theorem claim9_out_of_range_witness :
    FrameBuffer.set_pixel initFrame 16 (7, 8, 9) = none ∧
    set_pixel ⟨initFrame, false⟩ 16 (7, 8, 9) = none :=
  claim9_out_of_range initFrame 16 (7, 8, 9) false (by decide) (by decide)

/-- C10: `Ws2812b::new` raises the Change Notifier exactly once, after spawning
the handler task, on a zeroed frame; so the handler's first `wait` immediately
succeeds and the first render pass encodes the all-zero frame — every chunk is
24 `ZERO_BITS` data descriptors plus the 0 terminator — before any caller has
invoked `set_pixel` or `with_frame_buffer`. -/
theorem claim10_initial_render :
    newTrace.count Ev.signalRaise = 1 ∧
    (newTrace.dropWhile fun e => !(e == Ev.spawnHandler)).count Ev.signalRaise = 1 ∧
    new.pending = true ∧
    new.frame = List.replicate PIXEL_COUNT ⟨0, 0, 0⟩ ∧
    handlerWait new = some ⟨initFrame, false⟩ ∧
    encodeFrame initFrame initPulseCodes =
      List.replicate PIXEL_COUNT (List.replicate 24 ZERO_BITS ++ [0]) :=
  ⟨by decide, by decide, rfl, rfl, rfl, by decide⟩

end Ws2812b
